import Mathlib

/-!
Formal model of the geospy client (src/geospyer/geospy.py and
src/geospyer/cli.py).  Python strings are modelled as lists of Unicode
code points (`List Nat`); bytes are modelled as `Nat` values.
-/

namespace Geospy

/-- Code points of a Lean string literal; the model of a Python `str` value. -/
def strCodes (s : String) : List Nat := s.data.map Char.toNat

/-- One step of the scanner behind Python's `str.replace(pat, "")`:
`repAux p f s` scans `s` left to right, removing every non-overlapping
occurrence of `p`; `f` is fuel (at least `s.length` suffices). -/
def repAux (p : List Nat) : Nat → List Nat → List Nat
  | 0, s => s
  | _ + 1, [] => []
  | f + 1, c :: rest =>
      if p.isPrefixOf (c :: rest) then repAux p f ((c :: rest).drop p.length)
      else c :: repAux p f rest

/-- Model of Python `s.replace(p, "")`: remove every non-overlapping
occurrence of `p` from `s`, scanning left to right. -/
def removeAll (p s : List Nat) : List Nat := repAux p s.length s

/-- Python `str.strip()` whitespace (ASCII): space, \t, \n, \r, \v, \f. -/
def pySpace (c : Nat) : Bool := c = 32 || c = 9 || c = 10 || c = 13 || c = 11 || c = 12

/-- Model of Python `s.strip()`. -/
def pyStrip (s : List Nat) : List Nat :=
  ((s.dropWhile pySpace).reverse.dropWhile pySpace).reverse

/-- The code-fence marker "```json" (geospy.py line 368). -/
def fenceJson : List Nat := strCodes "```json"

/-- The code-fence marker "```" (geospy.py line 368). -/
def fence : List Nat := strCodes "```"

/-- Model of geospy.py line 368:
`raw_text.replace("```json", "").replace("```", "").strip()`. -/
def stripFences (s : List Nat) : List Nat :=
  pyStrip (removeAll fence (removeAll fenceJson s))

/-- Model of Python's substring test `p in s` on strings. -/
def substrB (p : List Nat) : List Nat → Bool
  | [] => p.isPrefixOf []
  | c :: rest => p.isPrefixOf (c :: rest) || substrB p rest

/-- Python `str.lower()`, restricted to ASCII letters (the inputs the
validation code compares are ASCII). -/
def lowerCode (c : Nat) : Nat := if 65 ≤ c && c ≤ 90 then c + 32 else c

/-- Model of `s.lower()`. -/
def toLowerCodes (s : List Nat) : List Nat := s.map lowerCode

/-- Decimal rendering of a natural number as code points. -/
def natToCodes (n : Nat) : List Nat := (Nat.toDigits 10 n).map Char.toNat

/-! ## The JSON value model (the shapes `json.loads` can return) -/

/-- A parsed JSON value.  Numbers are rationals (the model covers JSON
numbers without exponent notation); object fields are kept in source
order, with lookups resolving duplicate keys last-wins as a Python dict
built by `json.loads` does. -/
inductive Json where
  | jnull : Json
  | jbool : Bool → Json
  | jnum : ℚ → Json
  | jstr : List Nat → Json
  | jarr : List Json → Json
  | jobj : List (List Nat × Json) → Json

/-- Python dict lookup `d[k]` / `k in d` on an object built from a field
list: the last occurrence of a duplicate key wins. -/
def dget (fields : List (List Nat × Json)) (k : List Nat) : Option Json :=
  match fields.reverse.find? (fun p => p.1 == k) with
  | some p => some p.2
  | none => none

/-- Python `d.get(k, dflt)`. -/
def dgetD (fields : List (List Nat × Json)) (k : List Nat) (dflt : Json) : Json :=
  (dget fields k).getD dflt

/-- Field access on a JSON object value (`none` for non-objects). -/
def jfield (v : Json) (k : List Nat) : Option Json :=
  match v with
  | .jobj fields => dget fields k
  | _ => none

/-! ## A model of `json.loads` (recursive-descent parser over code points) -/

/-- JSON structural whitespace. -/
def jsonWs (c : Nat) : Bool := c = 32 || c = 9 || c = 10 || c = 13

/-- Is `c` the code of an ASCII digit. -/
def isDigitCode (c : Nat) : Bool := 48 ≤ c && c ≤ 57

/-- Digits to a natural number, most significant first. -/
def digitsToNat (ds : List Nat) : Nat := ds.foldl (fun n c => 10 * n + (c - 48)) 0

/-- Parse the body of a JSON string after the opening quote (code 34);
escape sequences are outside this model's subset.  Returns the string's
code points and the remaining input. -/
def parseStringBody : Nat → List Nat → Option (List Nat × List Nat)
  | 0, _ => none
  | _ + 1, [] => none
  | f + 1, c :: rest =>
      if c = 34 then some ([], rest)
      else if c = 92 then none
      else
        match parseStringBody f rest with
        | some (cs, r) => some (c :: cs, r)
        | none => none

/-- Parse a JSON number (optional minus, digits, optional fraction). -/
def parseNumber (s : List Nat) : Option (Json × List Nat) :=
  let (neg, s1) :=
    match s with
    | 45 :: r => (true, r)
    | _ => (false, s)
  let intd := s1.takeWhile isDigitCode
  let s2 := s1.dropWhile isDigitCode
  if intd = [] then none
  else
    match s2 with
    | 46 :: s3 =>
        let frd := s3.takeWhile isDigitCode
        let s4 := s3.dropWhile isDigitCode
        if frd = [] then none
        else
          let m : ℚ := (digitsToNat (intd ++ frd) : ℚ) / ((10 : ℚ) ^ frd.length)
          some (.jnum (if neg then -m else m), s4)
    | _ => some (.jnum (if neg then (-(digitsToNat intd : ℚ)) else (digitsToNat intd : ℚ)), s2)

mutual

/-- Parse one JSON value (fuelled recursive descent). -/
def parseValue : Nat → List Nat → Option (Json × List Nat)
  | 0, _ => none
  | f + 1, s =>
      match s.dropWhile jsonWs with
      | [] => none
      | c :: rest =>
          if c = 123 then parseObjRest f rest
          else if c = 91 then parseArrRest f rest
          else if c = 34 then
            match parseStringBody rest.length rest with
            | some (cs, r) => some (.jstr cs, r)
            | none => none
          else if (strCodes "true").isPrefixOf (c :: rest) then
            some (.jbool true, (c :: rest).drop 4)
          else if (strCodes "false").isPrefixOf (c :: rest) then
            some (.jbool false, (c :: rest).drop 5)
          else if (strCodes "null").isPrefixOf (c :: rest) then
            some (.jnull, (c :: rest).drop 4)
          else parseNumber (c :: rest)

/-- Parse the inside of an object after the opening brace. -/
def parseObjRest : Nat → List Nat → Option (Json × List Nat)
  | 0, _ => none
  | f + 1, s =>
      match s.dropWhile jsonWs with
      | 125 :: rest => some (.jobj [], rest)
      | _ =>
          match parseMembers f s with
          | some (ms, r) => some (.jobj ms, r)
          | none => none

/-- Parse one or more `"key": value` members, separated by commas and
terminated by a closing brace. -/
def parseMembers : Nat → List Nat → Option (List (List Nat × Json) × List Nat)
  | 0, _ => none
  | f + 1, s =>
      match s.dropWhile jsonWs with
      | 34 :: rest =>
          match parseStringBody rest.length rest with
          | none => none
          | some (key, r1) =>
              match r1.dropWhile jsonWs with
              | 58 :: r2 =>
                  match parseValue f r2 with
                  | none => none
                  | some (v, r3) =>
                      match r3.dropWhile jsonWs with
                      | 44 :: r4 =>
                          match parseMembers f r4 with
                          | some (ms, r5) => some ((key, v) :: ms, r5)
                          | none => none
                      | 125 :: r4 => some ([(key, v)], r4)
                      | _ => none
              | _ => none
      | _ => none

/-- Parse the inside of an array after the opening bracket. -/
def parseArrRest : Nat → List Nat → Option (Json × List Nat)
  | 0, _ => none
  | f + 1, s =>
      match s.dropWhile jsonWs with
      | 93 :: rest => some (.jarr [], rest)
      | _ =>
          match parseItems f s with
          | some (vs, r) => some (.jarr vs, r)
          | none => none

/-- Parse one or more array items, separated by commas and terminated by
a closing bracket. -/
def parseItems : Nat → List Nat → Option (List Json × List Nat)
  | 0, _ => none
  | f + 1, s =>
      match parseValue f s with
      | none => none
      | some (v, r) =>
          match r.dropWhile jsonWs with
          | 44 :: r2 =>
              match parseItems f r2 with
              | some (vs, r3) => some (v :: vs, r3)
              | none => none
          | 93 :: r2 => some ([v], r2)
          | _ => none

end

/-- Model of `json.loads`: parse one value and require only whitespace
after it. -/
def jsonLoads (s : List Nat) : Option Json :=
  match parseValue (3 * s.length + 16) s with
  | some (v, r) => if r.dropWhile jsonWs = [] then some v else none
  | none => none

/-! ## The response normalizer (geospy.py lines 364-418) -/

/-- The dictionary returned when `json.loads` raises `JSONDecodeError`
(geospy.py lines 389-393).  Note it carries no `rawResponse` field. -/
def malformedErr : Json :=
  .jobj [(strCodes "error", .jstr (strCodes "Failed to parse API response")),
         (strCodes "details", .jstr (strCodes "Invalid JSON response from API"))]

/-- The dictionary returned by the outer `except Exception` handler
(geospy.py lines 414-418). -/
def unexpectedErr : Json :=
  .jobj [(strCodes "error", .jstr (strCodes "Unexpected error")),
         (strCodes "details",
          .jstr (strCodes "An unexpected error occurred while processing the request"))]

/-- The single-location wrap of geospy.py lines 375-385: the parsed object
has a top-level `city` but no `locations`, so it is folded into the
canonical shape, defaulting `confidence` to "Medium" and `coordinates`
to latitude/longitude 0. -/
def wrapSingle (fields : List (List Nat × Json)) : Json :=
  .jobj [(strCodes "interpretation", dgetD fields (strCodes "interpretation") (.jstr [])),
         (strCodes "locations", .jarr [
            .jobj [(strCodes "country", dgetD fields (strCodes "country") (.jstr [])),
                   (strCodes "state", dgetD fields (strCodes "state") (.jstr [])),
                   (strCodes "city", dgetD fields (strCodes "city") (.jstr [])),
                   (strCodes "confidence", dgetD fields (strCodes "confidence") (.jstr (strCodes "Medium"))),
                   (strCodes "coordinates", dgetD fields (strCodes "coordinates")
                      (.jobj [(strCodes "latitude", .jnum 0), (strCodes "longitude", .jnum 0)])),
                   (strCodes "explanation", dgetD fields (strCodes "explanation") (.jstr []))]])]

/-- Python membership `k in xs` for a string key against a list value:
true when some element is that exact string. -/
def jstrMem (k : List Nat) : List Json → Bool
  | [] => false
  | .jstr s :: rest => s == k || jstrMem k rest
  | _ :: rest => jstrMem k rest

/-- Model of geospy.py lines 370-387 applied to the value `json.loads`
returned.  Python dynamics made explicit: `"city" in parsed_result` is a
key test on a dict, a substring test on a str, a membership test on a
list, and raises `TypeError` on numbers/booleans/None; a `.get` on a
non-dict raises `AttributeError`; both exceptions land in the outer
`except Exception` handler, which yields `unexpectedErr`. -/
def normalizeParsed : Json → Json
  | .jobj fields =>
      if (dget fields (strCodes "city")).isSome && (dget fields (strCodes "locations")).isNone
      then wrapSingle fields
      else .jobj fields
  | .jstr s =>
      if substrB (strCodes "city") s && !(substrB (strCodes "locations") s)
      then unexpectedErr
      else .jstr s
  | .jarr xs =>
      if jstrMem (strCodes "city") xs && !(jstrMem (strCodes "locations") xs)
      then unexpectedErr
      else .jarr xs
  | _ => unexpectedErr

/-- The response-normalization stage of `locate_with_gemini`
(geospy.py lines 367-393): strip fence markers, parse as JSON, return
`malformedErr` on parse failure, otherwise normalize. -/
def parseReply (raw : List Nat) : Json :=
  match jsonLoads (stripFences raw) with
  | none => malformedErr
  | some v => normalizeParsed v

/-- `parseReply` on a Lean string literal. -/
def parseReplyS (s : String) : Json := parseReply (strCodes s)

/-! ## Errors and the abstract environment -/

/-- The Python exceptions the validation/transport code raises.
`fileNotFound` models `FileNotFoundError`, which is a subclass of
`OSError`; `valueError` models `ValueError`. -/
inductive PyErr where
  | valueError : List Nat → PyErr
  | fileNotFound : List Nat → PyErr
  deriving DecidableEq

/-- The message carried by an exception. -/
def errMsg : PyErr → List Nat
  | .valueError m => m
  | .fileNotFound m => m

/-- The spec's `ValidationError` corresponds to a raised `ValueError`. -/
def isValidationError {α : Type} : Except PyErr α → Bool
  | .error (.valueError _) => true
  | _ => false

/-- The spec's `NotFoundError` corresponds to a raised
`FileNotFoundError`. -/
def isNotFoundError {α : Type} : Except PyErr α → Bool
  | .error (.fileNotFound _) => true
  | _ => false

/-- The spec's `TooLargeError`: the `ValueError`s the code raises for
oversize payloads, all of whose messages contain "too large". -/
def isTooLargeError : PyErr → Bool
  | .valueError m => substrB (strCodes "too large") m
  | _ => false

/-- The local filesystem as the validation code observes it:
`os.path.exists`, `os.path.isfile`, `os.path.getsize`, the bytes
`open(...).read()` yields, and the working directory `os.path.abspath`
joins relative paths to. -/
structure Fs where
  cwd : List Nat
  pathExists : List Nat → Bool
  isFile : List Nat → Bool
  fileSize : List Nat → Nat
  fileBytes : List Nat → List Nat

/-- Model of `os.path.abspath` for already-normalized inputs: absolute
paths (leading slash, code 47) are returned as given; relative paths are
joined to the working directory. -/
def abspath (fs : Fs) (p : List Nat) : List Nat :=
  match p with
  | 47 :: _ => p
  | _ => fs.cwd ++ 47 :: p

/-- The remote side as `requests.get(..., stream=True)` exposes it to
`encode_image_to_base64`: whether `raise_for_status` passes, the
`content-length` header if present, and the body chunks `iter_content`
yields in order. -/
structure Network where
  okStatus : List Nat → Bool
  contentLength : List Nat → Option Nat
  chunks : List Nat → List (List Nat)

/-! ## URL splitting and the input resolver (geospy.py lines 34-82) -/

/-- Model of `urllib.parse.urlparse` restricted to the fields the code
reads, for inputs of the form `scheme://netloc/rest`: the lowercased
scheme, the netloc (up to the first `/`, `?` or `#`), and the rest.
Inputs without `://` after the first colon-free run have no scheme. -/
def urlSplit (p : List Nat) : List Nat × List Nat × List Nat :=
  let sch := p.takeWhile (fun c => c ≠ 58)
  match p.dropWhile (fun c => c ≠ 58) with
  | 58 :: 47 :: 47 :: r =>
      (toLowerCodes sch,
       r.takeWhile (fun c => c ≠ 47 && c ≠ 63 && c ≠ 35),
       r.dropWhile (fun c => c ≠ 47 && c ≠ 63 && c ≠ 35))
  | _ => ([], [], p)

/-- `parsed_url.netloc.split(':')[0].lower()` (geospy.py line 47). -/
def hostOf (netloc : List Nat) : List Nat :=
  toLowerCodes (netloc.takeWhile (fun c => c ≠ 58))

/-- The string prefixes accepted by the private-range regular expression
`^(10\.|172\.(1[6-9]|2[0-9]|3[01])\.|192\.168\.)` (geospy.py line 52). -/
def privatePrefixes : List (List Nat) :=
  [strCodes "10.", strCodes "192.168.",
   strCodes "172.16.", strCodes "172.17.", strCodes "172.18.", strCodes "172.19.",
   strCodes "172.20.", strCodes "172.21.", strCodes "172.22.", strCodes "172.23.",
   strCodes "172.24.", strCodes "172.25.", strCodes "172.26.", strCodes "172.27.",
   strCodes "172.28.", strCodes "172.29.", strCodes "172.30.", strCodes "172.31."]

/-- `re.match` of the private-range pattern against the host. -/
def isPrivateHost (domain : List Nat) : Bool :=
  privatePrefixes.any (fun p => p.isPrefixOf domain)

/-- The extension allow-list (geospy.py line 71, cli.py line 49). -/
def allowedExtensions : List (List Nat) :=
  [strCodes ".jpg", strCodes ".jpeg", strCodes ".png",
   strCodes ".gif", strCodes ".bmp", strCodes ".webp"]

/-- The final path component (`pathlib.PurePath.name`). -/
def pathName (p : List Nat) : List Nat :=
  (p.reverse.takeWhile (fun c => c ≠ 47)).reverse

/-- Model of `pathlib.PurePath.suffix`: the part of the name from its
last dot, empty when there is no dot, the dot is the first character of
the name, or the dot is its last character. -/
def pathSuffix (p : List Nat) : List Nat :=
  let n := pathName p
  let afterRev := n.reverse.takeWhile (fun c => c ≠ 46)
  if afterRev.length = n.length then []
  else if afterRev.length = 0 then []
  else if afterRev.length = n.length - 1 then []
  else 46 :: afterRev.reverse

/-- The message of the unsupported-extension `ValueError`.  In the code
the allowed set is a Python `set` joined in iteration order; the model
fixes one representative order, which no claim inspects. -/
def unsupportedExtMsg : List Nat :=
  strCodes "Unsupported file type. Allowed: .jpg, .jpeg, .png, .gif, .bmp, .webp"

/-- The body of the local-file `try` block of `_validate_image_path`
(geospy.py lines 58-80) before its exception handler runs. -/
def localValidateInner (fs : Fs) (maxFileSize : Nat) (p : List Nat) : Except PyErr (List Nat) :=
  let absPath := abspath fs p
  if !fs.pathExists absPath then
    .error (.fileNotFound (strCodes "Image file not found: " ++ absPath))
  else if !fs.isFile absPath then
    .error (.valueError (strCodes "Path is not a file: " ++ absPath))
  else if !(allowedExtensions.contains (toLowerCodes (pathSuffix absPath))) then
    .error (.valueError unsupportedExtMsg)
  else if fs.fileSize absPath > maxFileSize then
    .error (.valueError (strCodes "File too large: " ++ natToCodes (fs.fileSize absPath) ++
      strCodes " bytes (max: " ++ natToCodes maxFileSize ++ strCodes " bytes)"))
  else .ok absPath

/-- The local branch of `_validate_image_path` including its
`except (OSError, IOError)` handler (geospy.py lines 81-82):
`FileNotFoundError` is a subclass of `OSError`, so the not-found error
raised inside the `try` is caught and re-raised as a `ValueError`;
`ValueError`s pass through. -/
def localValidate (fs : Fs) (maxFileSize : Nat) (p : List Nat) : Except PyErr (List Nat) :=
  match localValidateInner fs maxFileSize p with
  | .error (.fileNotFound m) => .error (.valueError (strCodes "Invalid file path: " ++ m))
  | r => r

/-- Model of `GeoSpy._validate_image_path` (geospy.py lines 34-82). -/
def validateImagePath (fs : Fs) (maxFileSize : Nat) (p : List Nat) : Except PyErr (List Nat) :=
  if p = [] then .error (.valueError (strCodes "Image path must be a non-empty string"))
  else if (urlSplit p).1 = strCodes "http" ∨ (urlSplit p).1 = strCodes "https" then
    if (urlSplit p).2.1 = [] then .error (.valueError (strCodes "Invalid URL: missing domain"))
    else if hostOf (urlSplit p).2.1 = strCodes "localhost" ∨
            hostOf (urlSplit p).2.1 = strCodes "127.0.0.1" ∨
            hostOf (urlSplit p).2.1 = strCodes "0.0.0.0" then
      .error (.valueError (strCodes "Localhost URLs are not allowed"))
    else if isPrivateHost (hostOf (urlSplit p).2.1) then
      .error (.valueError (strCodes "Private IP addresses are not allowed"))
    else .ok p
  else localValidate fs maxFileSize p

/-! ## The transport client (geospy.py lines 108-176) -/

/-- The base64 alphabet. -/
def base64Table : List Nat :=
  strCodes "ABCDEFGHIJKLMNOPQRSTUVWXYZabcdefghijklmnopqrstuvwxyz0123456789+/"

/-- Index into the base64 alphabet. -/
def b64get (i : Nat) : Nat := base64Table.getD i 0

/-- Standard base64 of a byte list (code 61 is the `=` padding). -/
def base64Encode : List Nat → List Nat
  | [] => []
  | [b1] => [b64get (b1 / 4), b64get (b1 % 4 * 16), 61, 61]
  | [b1, b2] => [b64get (b1 / 4), b64get (b1 % 4 * 16 + b2 / 16), b64get (b2 % 16 * 4), 61]
  | b1 :: b2 :: b3 :: rest =>
      b64get (b1 / 4) :: b64get (b1 % 4 * 16 + b2 / 16) ::
      b64get (b2 % 16 * 4 + b3 / 64) :: b64get (b3 % 64) :: base64Encode rest

/-- The message of the streaming-loop size `ValueError`
(geospy.py line 150). -/
def chunkTooLargeMsg (maxFileSize : Nat) : List Nat :=
  strCodes "Image too large (max: " ++ natToCodes maxFileSize ++ strCodes " bytes)"

/-- The streaming read loop of geospy.py lines 147-151: accumulate the
chunks, aborting as soon as appending the next chunk would push the
accumulated byte count over the limit. -/
def readChunks (maxFileSize : Nat) (acc : List Nat) : List (List Nat) → Except PyErr (List Nat)
  | [] => .ok acc
  | ch :: rest =>
      if acc.length + ch.length > maxFileSize then
        .error (.valueError (chunkTooLargeMsg maxFileSize))
      else readChunks maxFileSize (acc ++ ch) rest

/-- The byte stream behind a validated reference: the joined body chunks
for a remote URL, the file's bytes for a local path. -/
def streamBytes (fs : Fs) (net : Network) (vp : List Nat) : List Nat :=
  if (strCodes "http://").isPrefixOf vp || (strCodes "https://").isPrefixOf vp then
    (net.chunks vp).flatten
  else fs.fileBytes vp

/-- Model of `GeoSpy.encode_image_to_base64` (geospy.py lines 108-176):
validate the reference; for a URL check `raise_for_status`, reject an
over-limit `content-length` up front, then stream with the bounded loop;
for a local file read all bytes and reject if over the limit; base64 the
result.  An `Except.error` carries no encoded payload. -/
def encodeImageToBase64 (fs : Fs) (net : Network) (maxFileSize : Nat) (p : List Nat) :
    Except PyErr (List Nat) :=
  match validateImagePath fs maxFileSize p with
  | .error e => .error e
  | .ok vp =>
      if (strCodes "http://").isPrefixOf vp || (strCodes "https://").isPrefixOf vp then
        if !net.okStatus vp then
          .error (.valueError (strCodes "HTTP error when downloading image"))
        else
          match net.contentLength vp with
          | some cl =>
              if cl > maxFileSize then
                .error (.valueError (strCodes "Image too large: " ++ natToCodes cl ++
                  strCodes " bytes (max: " ++ natToCodes maxFileSize ++ strCodes " bytes)"))
              else
                match readChunks maxFileSize [] (net.chunks vp) with
                | .ok content => .ok (base64Encode content)
                | .error e => .error e
          | none =>
              match readChunks maxFileSize [] (net.chunks vp) with
              | .ok content => .ok (base64Encode content)
              | .error e => .error e
      else
        if (fs.fileBytes vp).length > maxFileSize then
          .error (.valueError (strCodes "File too large: " ++ natToCodes (fs.fileBytes vp).length ++
            strCodes " bytes (max: " ++ natToCodes maxFileSize ++ strCodes " bytes)"))
        else .ok (base64Encode (fs.fileBytes vp))

/-! ## The locate error path (geospy.py lines 219-230) -/

/-- The sanitizer of geospy.py lines 224-229: rewrite the message only
when it contains one of two fixed markers. -/
def sanitizeEncodeError (m : List Nat) : List Nat :=
  if substrB (strCodes "No such file or directory") m then strCodes "Image file not found"
  else if substrB (strCodes "Permission denied") m then
    strCodes "Permission denied accessing image file"
  else m

/-- The image-processing failure path of `locate_with_gemini`
(geospy.py lines 219-230): when encoding raises, return the error
dictionary built from the sanitized message; `none` when encoding
succeeds and the request proceeds. -/
def locateEncodeFailure (fs : Fs) (net : Network) (maxFileSize : Nat) (p : List Nat) :
    Option Json :=
  match encodeImageToBase64 fs net maxFileSize p with
  | .error e =>
      some (.jobj [(strCodes "error",
        .jstr (strCodes "Failed to process image: " ++ sanitizeEncodeError (errMsg e)))])
  | .ok _ => none

/-! ## The CLI validator (cli.py lines 43-64) -/

/-- Model of `cli.validate_image_path`: the extension allow-list is
checked on the raw input (URL or path) before the local/remote split. -/
def cliValidateImagePath (fs : Fs) (p : List Nat) : Except PyErr (List Nat) :=
  if p = [] then .error (.valueError (strCodes "Image path cannot be empty"))
  else if !(allowedExtensions.contains (toLowerCodes (pathSuffix p))) then
    .error (.valueError unsupportedExtMsg)
  else if !((strCodes "http://").isPrefixOf p || (strCodes "https://").isPrefixOf p) then
    let absPath := abspath fs p
    if !fs.pathExists absPath then
      .error (.fileNotFound (strCodes "Image file not found: " ++ absPath))
    else if !fs.isFile absPath then
      .error (.valueError (strCodes "Path is not a file: " ++ absPath))
    else .ok absPath
  else .ok p

/-! ## Rate limiting (geospy.py lines 97-106) and construction (13-32) -/

/-- The rate limiter's state: `self.last_request_time`. -/
structure RateState where
  lastRequestTime : ℚ

/-- Model of `GeoSpy._rate_limit` under an idealized clock: at clock
reading `now`, sleep for `min_request_interval - elapsed` when the time
since the last request is below the interval, then store the post-sleep
clock reading.  Returns the sleep duration and the new state. -/
def rateLimit (minInterval : ℚ) (st : RateState) (now : ℚ) : ℚ × RateState :=
  let elapsed := now - st.lastRequestTime
  if elapsed < minInterval then
    (minInterval - elapsed, ⟨now + (minInterval - elapsed)⟩)
  else (0, ⟨now⟩)

/-- The clock time at which a `locate` call begun at `now` dispatches its
request: `_rate_limit` runs first (geospy.py line 217), so dispatch
happens after the sleep. -/
def dispatchTime (minInterval : ℚ) (st : RateState) (now : ℚ) : ℚ :=
  now + (rateLimit minInterval st now).1

/-- Is `c` in the key character class `[A-Za-z0-9_-]`. -/
def validKeyChar (c : Nat) : Bool :=
  (65 ≤ c && c ≤ 90) || (97 ≤ c && c ≤ 122) || (48 ≤ c && c ≤ 57) || c = 95 || c = 45

/-- Model of `re.match(r'^[A-Za-z0-9_-]+$', k)`: the anchored `$` also
matches just before a single trailing newline (code 10). -/
def keyRegexMatches (k : List Nat) : Bool :=
  match k.reverse with
  | [] => false
  | 10 :: restRev => !restRev.isEmpty && restRev.reverse.all validKeyChar
  | _ => k.all validKeyChar

/-- The `api_key or os.environ.get("GEMINI_API_KEY")` fallback
(geospy.py line 15): Python truthiness makes an explicit empty string
fall through to the environment exactly like `None`. -/
def effectiveApiKey (apiKey envKey : Option (List Nat)) : Option (List Nat) :=
  match apiKey with
  | some k => if k = [] then envKey else some k
  | none => envKey

/-- The outcome of `GeoSpy.__init__`'s credential handling. -/
inductive InitResult where
  | ok : List Nat → InitResult
  | configError : List Nat → InitResult
  deriving DecidableEq

/-- Model of `GeoSpy.__init__` (geospy.py lines 13-26): resolve the key
with the truthiness fallback, fail when the result is missing or empty,
fail when it does not match the format pattern, otherwise construct. -/
def geoSpyInit (apiKey envKey : Option (List Nat)) : InitResult :=
  match effectiveApiKey apiKey envKey with
  | none => .configError (strCodes "Gemini API key is required")
  | some k =>
      if k = [] then .configError (strCodes "Gemini API key is required")
      else if !keyRegexMatches k then .configError (strCodes "Invalid API key format")
      else .ok k

/-! ## Concrete environments used in witnesses -/

/-- A filesystem with no files. -/
def emptyFs : Fs :=
  ⟨strCodes "/work", fun _ => false, fun _ => false, fun _ => 0, fun _ => []⟩

/-- A network world with passing status, no content-length header, and a
fixed four-byte body for every URL. -/
def smallNet : Network := ⟨fun _ => true, fun _ => none, fun _ => [[1, 2, 3, 4]]⟩

/-- The fields `json.loads` yields for the reply
`{"city":"Paris","country":"France","interpretation":"x"}`. -/
def parisFields : List (List Nat × Json) :=
  [(strCodes "city", .jstr (strCodes "Paris")),
   (strCodes "country", .jstr (strCodes "France")),
   (strCodes "interpretation", .jstr (strCodes "x"))]

/-! ## Scanner lemmas -/

theorem repAux_eq_of_le (p : List Nat) (hp : p ≠ []) :
    ∀ (f g : Nat) (s : List Nat), s.length ≤ f → s.length ≤ g →
      repAux p f s = repAux p g s := by
  intro f
  induction f with
  | zero =>
    intro g s hf _
    have hs : s = [] := List.length_eq_zero.mp (Nat.le_zero.mp hf)
    subst hs
    cases g <;> rfl
  | succ f ih =>
    intro g s hf hg
    cases s with
    | nil => cases g <;> rfl
    | cons c rest =>
      cases g with
      | zero => simp at hg
      | succ g' =>
        have hplen : 1 ≤ p.length := List.length_pos.mpr hp
        simp only [repAux]
        by_cases h : p.isPrefixOf (c :: rest) = true
        · rw [if_pos h, if_pos h]
          apply ih
          · rw [List.length_drop]
            simp only [List.length_cons] at hf ⊢
            omega
          · rw [List.length_drop]
            simp only [List.length_cons] at hg ⊢
            omega
        · rw [if_neg h, if_neg h]
          simp only [List.length_cons] at hf hg
          exact congrArg (c :: ·) (ih g' rest (by omega) (by omega))

theorem removeAll_cons_pos (p : List Nat) (hp : p ≠ []) (c : Nat) (rest : List Nat)
    (h : p.isPrefixOf (c :: rest) = true) :
    removeAll p (c :: rest) = removeAll p ((c :: rest).drop p.length) := by
  have hplen : 1 ≤ p.length := List.length_pos.mpr hp
  unfold removeAll
  simp only [List.length_cons, repAux, if_pos h]
  apply repAux_eq_of_le p hp
  · rw [List.length_drop]; simp only [List.length_cons]; omega
  · exact le_refl _

theorem removeAll_cons_neg (p : List Nat) (c : Nat) (rest : List Nat)
    (h : p.isPrefixOf (c :: rest) = false) :
    removeAll p (c :: rest) = c :: removeAll p rest := by
  unfold removeAll
  simp only [List.length_cons, repAux, h]
  rfl

theorem length_le_of_isPrefixOf :
    ∀ (p s : List Nat), p.isPrefixOf s = true → p.length ≤ s.length := by
  intro p
  induction p with
  | nil => intro s _; simp
  | cons a p' ih =>
    intro s h
    cases s with
    | nil => simp [List.isPrefixOf] at h
    | cons b s' =>
      simp only [List.isPrefixOf, Bool.and_eq_true] at h
      simp only [List.length_cons]
      exact Nat.succ_le_succ (ih s' h.2)

theorem isPrefixOf_append_of_le :
    ∀ (p t u : List Nat), p.length ≤ t.length →
      p.isPrefixOf (t ++ u) = p.isPrefixOf t := by
  intro p
  induction p with
  | nil => intro t u _; simp [List.isPrefixOf]
  | cons a p' ih =>
    intro t u hl
    cases t with
    | nil => simp at hl
    | cons b t' =>
      simp only [List.cons_append, List.isPrefixOf, List.append_eq]
      simp only [List.length_cons] at hl
      rw [ih t' u (by omega)]

theorem isPrefixOf_append_self :
    ∀ (p s : List Nat), p.isPrefixOf (p ++ s) = true := by
  intro p
  induction p with
  | nil => intro s; simp [List.isPrefixOf]
  | cons a p' ih => intro s; simp [List.isPrefixOf, ih]

theorem drop_append_of_le :
    ∀ (n : Nat) (t u : List Nat), n ≤ t.length → (t ++ u).drop n = t.drop n ++ u := by
  intro n
  induction n with
  | zero => intro t u _; simp
  | succ n ih =>
    intro t u hl
    cases t with
    | nil => simp at hl
    | cons b t' =>
      simp only [List.cons_append, List.drop_succ_cons]
      exact ih t' u (by simp only [List.length_cons] at hl; omega)

theorem substrB_append_left (q : List Nat) :
    ∀ (s t : List Nat), substrB q s = true → substrB q (s ++ t) = true := by
  intro s
  induction s with
  | nil =>
    intro t h
    simp only [substrB] at h
    have : q = [] := by
      cases q with
      | nil => rfl
      | cons a q' => simp [List.isPrefixOf] at h
    subst this
    cases t with
    | nil => simp [substrB, List.isPrefixOf]
    | cons c t' => simp [substrB, List.isPrefixOf]
  | cons c s' ih =>
    intro t h
    simp only [substrB, Bool.or_eq_true] at h
    cases h with
    | inl h =>
      have hle := length_le_of_isPrefixOf _ _ h
      simp only [List.cons_append, substrB, Bool.or_eq_true]
      left
      have hrw : q.isPrefixOf ((c :: s') ++ t) = q.isPrefixOf (c :: s') :=
        isPrefixOf_append_of_le q (c :: s') t hle
      simp only [List.cons_append] at hrw
      show q.isPrefixOf (c :: (s' ++ t)) = true
      rw [hrw]
      exact h
    | inr h =>
      simp only [List.cons_append, substrB, Bool.or_eq_true]
      right
      exact ih t h

/-! ## Fence-stripping lemmas (for the code-fence invariance claim) -/

theorem removeAll_self_append (p s : List Nat) (hp : p ≠ []) :
    removeAll p (p ++ s) = removeAll p s := by
  cases p with
  | nil => exact absurd rfl hp
  | cons a p' =>
    have h : (a :: p').isPrefixOf (a :: (p' ++ s)) = true := by
      have h0 : (a :: p').isPrefixOf ((a :: p') ++ s) = true := isPrefixOf_append_self _ _
      simp only [List.cons_append] at h0
      exact h0
    have := removeAll_cons_pos (a :: p') hp a (p' ++ s) h
    simp only [List.cons_append] at this ⊢
    rw [this]
    congr 1
    show (a :: (p' ++ s)).drop (a :: p').length = s
    have : (a :: (p' ++ s)) = (a :: p') ++ s := by simp
    rw [this, drop_append_of_le _ _ _ (le_refl _), List.drop_length, List.nil_append]

theorem fenceJson_not_prefix_short (t : List Nat) (ht : t.length < 7) :
    fenceJson.isPrefixOf (t ++ fence) = false := by
  have hfj : fenceJson = [96, 96, 96, 106, 115, 111, 110] := rfl
  have hf : fence = [96, 96, 96] := rfl
  rcases t with _ | ⟨a, _ | ⟨b, _ | ⟨c, _ | ⟨d, _ | ⟨e, _ | ⟨f, _ | ⟨g, rest⟩⟩⟩⟩⟩⟩⟩
  · rfl
  · simp [hfj, hf, List.isPrefixOf, show ((106 : Nat) == 96) = false from rfl]
  · simp [hfj, hf, List.isPrefixOf, show ((115 : Nat) == 96) = false from rfl]
  · simp [hfj, hf, List.isPrefixOf, show ((111 : Nat) == 96) = false from rfl]
  · simp [hfj, hf, List.isPrefixOf, show ((115 : Nat) == 96) = false from rfl]
  · simp [hfj, hf, List.isPrefixOf, show ((111 : Nat) == 96) = false from rfl]
  · simp [hfj, hf, List.isPrefixOf, show ((110 : Nat) == 96) = false from rfl]
  · simp only [List.length_cons] at ht; omega

theorem removeAll_fenceJson_append_fence_aux :
    ∀ (n : Nat) (t : List Nat), t.length ≤ n →
      removeAll fenceJson (t ++ fence) = removeAll fenceJson t ++ fence := by
  intro n
  induction n with
  | zero =>
    intro t ht
    have : t = [] := List.length_eq_zero.mp (Nat.le_zero.mp ht)
    subst this
    rfl
  | succ n ih =>
    intro t ht
    cases t with
    | nil => rfl
    | cons c t' =>
      have hfne : fenceJson ≠ [] := by decide
      cases hb : fenceJson.isPrefixOf (c :: t') with
      | true =>
        have hlen : fenceJson.length ≤ (c :: t').length := length_le_of_isPrefixOf _ _ hb
        have hb2 : fenceJson.isPrefixOf ((c :: t') ++ fence) = true := by
          rw [isPrefixOf_append_of_le _ _ _ hlen]; exact hb
        have hstep2 := removeAll_cons_pos fenceJson hfne c (t' ++ fence)
          (by simpa using hb2)
        have hstep1 := removeAll_cons_pos fenceJson hfne c t' hb
        simp only [List.cons_append] at hstep2
        simp only [List.cons_append]
        rw [hstep2, hstep1]
        have hdrop : (c :: (t' ++ fence)).drop fenceJson.length =
            (c :: t').drop fenceJson.length ++ fence := by
          have : (c :: (t' ++ fence)) = (c :: t') ++ fence := by simp
          rw [this, drop_append_of_le _ _ _ hlen]
        rw [hdrop]
        apply ih
        rw [List.length_drop]
        have hfl : fenceJson.length = 7 := rfl
        rw [hfl]
        simp only [List.length_cons] at ht ⊢
        have h7 : (7 : Nat) ≤ t'.length + 1 := by rw [hfl] at hlen; simpa using hlen
        omega
      | false =>
        have hb2 : fenceJson.isPrefixOf ((c :: t') ++ fence) = false := by
          rcases Nat.lt_or_ge (c :: t').length 7 with hlt | hge
          · exact fenceJson_not_prefix_short _ hlt
          · have h7 : fenceJson.length ≤ (c :: t').length := by
              have : fenceJson.length = 7 := rfl
              omega
            rw [isPrefixOf_append_of_le _ _ _ h7]; exact hb
        have hstep2 := removeAll_cons_neg fenceJson c (t' ++ fence) (by simpa using hb2)
        have hstep1 := removeAll_cons_neg fenceJson c t' hb
        simp only [List.cons_append] at hstep2
        simp only [List.cons_append]
        rw [hstep2, hstep1]
        simp only [List.cons_append]
        congr 1
        apply ih
        simp only [List.length_cons] at ht
        omega

theorem removeAll_fenceJson_append_fence (t : List Nat) :
    removeAll fenceJson (t ++ fence) = removeAll fenceJson t ++ fence :=
  removeAll_fenceJson_append_fence_aux t.length t (le_refl _)

theorem removeAll_fence_append_fence_aux :
    ∀ (n : Nat) (u : List Nat), u.length ≤ n →
      removeAll fence (u ++ fence) = removeAll fence u := by
  intro n
  induction n with
  | zero =>
    intro u hu
    have : u = [] := List.length_eq_zero.mp (Nat.le_zero.mp hu)
    subst this
    rfl
  | succ n ih =>
    intro u hu
    cases u with
    | nil => rfl
    | cons c u' =>
      have hfne : fence ≠ [] := by decide
      cases hb : fence.isPrefixOf (c :: u') with
      | true =>
        have hlen : fence.length ≤ (c :: u').length := length_le_of_isPrefixOf _ _ hb
        have hb2 : fence.isPrefixOf ((c :: u') ++ fence) = true := by
          rw [isPrefixOf_append_of_le _ _ _ hlen]; exact hb
        have hstep2 := removeAll_cons_pos fence hfne c (u' ++ fence) (by simpa using hb2)
        have hstep1 := removeAll_cons_pos fence hfne c u' hb
        simp only [List.cons_append] at hstep2
        simp only [List.cons_append]
        rw [hstep2, hstep1]
        have hdrop : (c :: (u' ++ fence)).drop fence.length =
            (c :: u').drop fence.length ++ fence := by
          have : (c :: (u' ++ fence)) = (c :: u') ++ fence := by simp
          rw [this, drop_append_of_le _ _ _ hlen]
        rw [hdrop]
        apply ih
        rw [List.length_drop]
        have hfl : fence.length = 3 := rfl
        rw [hfl]
        simp only [List.length_cons] at hu ⊢
        have h3 : (3 : Nat) ≤ u'.length + 1 := by rw [hfl] at hlen; simpa using hlen
        omega
      | false =>
        cases hb2 : fence.isPrefixOf ((c :: u') ++ fence) with
        | false =>
          have hstep2 := removeAll_cons_neg fence c (u' ++ fence) (by simpa using hb2)
          have hstep1 := removeAll_cons_neg fence c u' hb
          simp only [List.cons_append] at hstep2
          simp only [List.cons_append]
          rw [hstep2, hstep1]
          congr 1
          apply ih
          simp only [List.length_cons] at hu
          omega
        | true =>
          have hlt : (c :: u').length < 3 := by
            by_contra hge
            rw [isPrefixOf_append_of_le _ _ _ (Nat.le_of_not_lt hge)] at hb2
            rw [hb] at hb2
            exact Bool.false_ne_true hb2
          have hf : fence = [96, 96, 96] := rfl
          rcases u' with _ | ⟨d, _ | ⟨e, rest⟩⟩
          · have hc : c = 96 := by
              rw [hf] at hb2
              simp only [List.cons_append, List.nil_append, List.isPrefixOf,
                Bool.and_eq_true, beq_iff_eq] at hb2
              exact hb2.1.symm
            subst hc
            rfl
          · have hcd : c = 96 ∧ d = 96 := by
              rw [hf] at hb2
              simp only [List.cons_append, List.nil_append, List.isPrefixOf,
                Bool.and_eq_true, beq_iff_eq] at hb2
              exact ⟨hb2.1.symm, hb2.2.1.symm⟩
            obtain ⟨hc, hd⟩ := hcd
            subst hc; subst hd
            rfl
          · simp only [List.length_cons] at hlt; omega

theorem removeAll_fence_append_fence (u : List Nat) :
    removeAll fence (u ++ fence) = removeAll fence u :=
  removeAll_fence_append_fence_aux u.length u (le_refl _)

theorem stripFences_wrap (t : List Nat) :
    stripFences (fenceJson ++ t ++ fence) = stripFences t := by
  unfold stripFences
  rw [List.append_assoc, removeAll_self_append fenceJson _ (by decide),
    removeAll_fenceJson_append_fence, removeAll_fence_append_fence]

/-! ## Claim C7 -/

/-- Claim C7: for every reply text `t`, `parse` applied to `t` wrapped in
```json ... ``` code-fence markers returns the same `GeoResult` as
`parse` applied to `t` without the fences. -/
theorem fence_wrapped_reply_parses_identically (t : String) :
    parseReplyS ("```json" ++ t ++ "```") = parseReplyS t := by
  unfold parseReplyS parseReply
  have h : strCodes ("```json" ++ t ++ "```") = fenceJson ++ strCodes t ++ fence := by
    simp [strCodes, fenceJson, fence]
  rw [h, stripFences_wrap]

/-! ## Claim C3 -/

/-- Claim C3 counterexample: `parse` on the non-JSON text "not json"
returns the fixed error dictionary, which has no `rawResponse` field at
all — in particular its `rawResponse` does not equal the original
text. -/
theorem malformed_reply_lacks_rawResponse :
    parseReplyS "not json" = malformedErr ∧
    jfield (parseReplyS "not json") (strCodes "rawResponse") = none :=
  ⟨rfl, rfl⟩

/-- Claim C3 (amended): for every raw reply text that is not parseable as
JSON after fence stripping, `parse` returns the fixed failure dictionary
with error "Failed to parse API response" and details "Invalid JSON
response from API"; the original reply text is not preserved (there is no
`rawResponse` field). -/
theorem unparseable_reply_yields_fixed_error_dict (t : List Nat)
    (h : jsonLoads (stripFences t) = none) :
    parseReply t = malformedErr ∧
    jfield (parseReply t) (strCodes "rawResponse") = none := by
  unfold parseReply
  rw [h]
  exact ⟨rfl, rfl⟩

/-- Witness for the amended claim C3 at the concrete text "no json here". -/
theorem unparseable_reply_yields_fixed_error_dict_witness :
    parseReply (strCodes "no json here") = malformedErr ∧
    jfield (parseReply (strCodes "no json here")) (strCodes "rawResponse") = none :=
  unparseable_reply_yields_fixed_error_dict (strCodes "no json here") rfl

/-! ## Claim C6 -/

/-- Claim C6: `parse` on a parsed JSON object with a top-level `city`
field but no `locations` array returns a success result whose locations
sequence has length exactly one, whose single candidate defaults a
missing `confidence` to "Medium" and missing `coordinates` to latitude
and longitude 0, and which carries over the `interpretation` string. -/
theorem single_location_reply_normalized (t : List Nat)
    (fields : List (List Nat × Json)) (cityV : Json) (interp : List Nat)
    (hp : jsonLoads (stripFences t) = some (.jobj fields))
    (hcity : dget fields (strCodes "city") = some cityV)
    (hloc : dget fields (strCodes "locations") = none)
    (hconf : dget fields (strCodes "confidence") = none)
    (hcoord : dget fields (strCodes "coordinates") = none)
    (hint : dget fields (strCodes "interpretation") = some (.jstr interp)) :
    parseReply t = .jobj [
      (strCodes "interpretation", .jstr interp),
      (strCodes "locations", .jarr [
        .jobj [(strCodes "country", dgetD fields (strCodes "country") (.jstr [])),
               (strCodes "state", dgetD fields (strCodes "state") (.jstr [])),
               (strCodes "city", cityV),
               (strCodes "confidence", .jstr (strCodes "Medium")),
               (strCodes "coordinates",
                 .jobj [(strCodes "latitude", .jnum 0), (strCodes "longitude", .jnum 0)]),
               (strCodes "explanation", dgetD fields (strCodes "explanation") (.jstr []))]])] := by
  unfold parseReply
  rw [hp]
  show (if ((dget fields (strCodes "city")).isSome &&
            (dget fields (strCodes "locations")).isNone) = true
        then wrapSingle fields else Json.jobj fields) = _
  rw [hcity, hloc]
  simp only [Option.isSome_some, Option.isNone_none, Bool.and_self, if_true]
  unfold wrapSingle dgetD
  rw [hcity, hconf, hcoord, hint]
  rfl

/-- Witness for claim C6 at the spec's example reply
`{"city":"Paris","country":"France","interpretation":"x"}`. -/
theorem single_location_reply_normalized_witness :
    parseReplyS "\x7b\"city\":\"Paris\",\"country\":\"France\",\"interpretation\":\"x\"\x7d" =
      .jobj [
        (strCodes "interpretation", .jstr (strCodes "x")),
        (strCodes "locations", .jarr [
          .jobj [(strCodes "country", .jstr (strCodes "France")),
                 (strCodes "state", .jstr []),
                 (strCodes "city", .jstr (strCodes "Paris")),
                 (strCodes "confidence", .jstr (strCodes "Medium")),
                 (strCodes "coordinates",
                   .jobj [(strCodes "latitude", .jnum 0), (strCodes "longitude", .jnum 0)]),
                 (strCodes "explanation", .jstr [])]])] :=
  single_location_reply_normalized
    (strCodes "\x7b\"city\":\"Paris\",\"country\":\"France\",\"interpretation\":\"x\"\x7d")
    parisFields (.jstr (strCodes "Paris")) (strCodes "x") rfl rfl rfl rfl rfl rfl

/-! ## Claim C2 -/

/-- Claim C2: for every remote URL whose host is literally `localhost`,
`127.0.0.1` or `0.0.0.0`, or whose host string-prefix-matches the private
ranges 10.0.0.0/8, 172.16.0.0/12 or 192.168.0.0/16,
`_validate_image_path` fails with a `ValidationError`; consequently
`encode_image_to_base64` returns the very same error for every possible
network world — no network call is made. -/
theorem private_host_rejected_before_network (fs : Fs) (maxFileSize : Nat) (p : List Nat)
    (hscheme : (urlSplit p).1 = strCodes "http" ∨ (urlSplit p).1 = strCodes "https")
    (hbad : hostOf (urlSplit p).2.1 = strCodes "localhost" ∨
            hostOf (urlSplit p).2.1 = strCodes "127.0.0.1" ∨
            hostOf (urlSplit p).2.1 = strCodes "0.0.0.0" ∨
            isPrivateHost (hostOf (urlSplit p).2.1) = true) :
    ∃ m, validateImagePath fs maxFileSize p = .error (.valueError m) ∧
      ∀ (net : Network), encodeImageToBase64 fs net maxFileSize p = .error (.valueError m) := by
  have hne : p ≠ [] := by
    intro hp0
    subst hp0
    rcases hscheme with h | h <;> exact absurd h (by decide)
  have hmain : ∃ m, validateImagePath fs maxFileSize p = .error (.valueError m) := by
    unfold validateImagePath
    rw [if_neg hne, if_pos hscheme]
    by_cases h0 : (urlSplit p).2.1 = []
    · exact ⟨_, by rw [if_pos h0]⟩
    · rw [if_neg h0]
      by_cases h1 : hostOf (urlSplit p).2.1 = strCodes "localhost" ∨
          hostOf (urlSplit p).2.1 = strCodes "127.0.0.1" ∨
          hostOf (urlSplit p).2.1 = strCodes "0.0.0.0"
      · exact ⟨_, by rw [if_pos h1]⟩
      · rw [if_neg h1]
        have h2 : isPrivateHost (hostOf (urlSplit p).2.1) = true := by
          rcases hbad with h | h | h | h
          · exact absurd (Or.inl h) h1
          · exact absurd (Or.inr (Or.inl h)) h1
          · exact absurd (Or.inr (Or.inr h)) h1
          · exact h
        exact ⟨_, by rw [if_pos h2]⟩
  obtain ⟨m, hm⟩ := hmain
  refine ⟨m, hm, fun net => ?_⟩
  unfold encodeImageToBase64
  rw [hm]

/-- Witness for claim C2 at the private-range URL
`http://192.168.1.5/cam.jpg`. -/
theorem private_host_rejected_before_network_witness :
    ∃ m, validateImagePath emptyFs 100 (strCodes "http://192.168.1.5/cam.jpg") =
        .error (.valueError m) ∧
      ∀ (net : Network), encodeImageToBase64 emptyFs net 100
        (strCodes "http://192.168.1.5/cam.jpg") = .error (.valueError m) :=
  private_host_rejected_before_network emptyFs 100 (strCodes "http://192.168.1.5/cam.jpg")
    (Or.inl (by decide)) (Or.inr (Or.inr (Or.inr (by decide))))

/-! ## Claim C1 -/

theorem readChunks_oversize (maxFileSize : Nat) :
    ∀ (chunks : List (List Nat)) (acc : List Nat),
      acc.length ≤ maxFileSize →
      acc.length + chunks.flatten.length > maxFileSize →
      readChunks maxFileSize acc chunks =
        .error (.valueError (chunkTooLargeMsg maxFileSize)) := by
  intro chunks
  induction chunks with
  | nil =>
    intro acc h1 h2
    simp only [List.flatten_nil, List.length_nil] at h2
    omega
  | cons ch rest ih =>
    intro acc h1 h2
    unfold readChunks
    by_cases hc : acc.length + ch.length > maxFileSize
    · rw [if_pos hc]
    · rw [if_neg hc]
      apply ih
      · simp only [List.length_append]; omega
      · simp only [List.length_append]
        simp only [List.flatten_cons, List.length_append] at h2
        omega

theorem tooLarge_in_prefixed (prefixPart tail : List Nat)
    (h : substrB (strCodes "too large") prefixPart = true) :
    substrB (strCodes "too large") (prefixPart ++ tail) = true :=
  substrB_append_left _ _ _ h

/-- Claim C1: for every image reference whose byte stream exceeds the
configured size ceiling, `encode_image_to_base64` fails with a
too-large error and returns no encoded data (`Except.error` carries no
payload); for remote references this holds for every `content-length`
header value — absent or under-reporting — because the streaming loop
aborts as soon as the accumulated byte count would exceed the ceiling. -/
theorem oversize_stream_rejected (fs : Fs) (net : Network) (maxFileSize : Nat)
    (p vp : List Nat)
    (hv : validateImagePath fs maxFileSize p = .ok vp)
    (hok : net.okStatus vp = true)
    (hbig : (streamBytes fs net vp).length > maxFileSize) :
    ∃ e, encodeImageToBase64 fs net maxFileSize p = .error e ∧ isTooLargeError e = true := by
  simp only [encodeImageToBase64, hv]
  unfold streamBytes at hbig
  by_cases hurl : ((strCodes "http://").isPrefixOf vp ||
      (strCodes "https://").isPrefixOf vp) = true
  · rw [if_pos hurl]
    rw [if_pos hurl] at hbig
    rw [hok]
    simp only [Bool.not_true, Bool.false_eq_true, if_false]
    have hread : readChunks maxFileSize [] (net.chunks vp) =
        .error (.valueError (chunkTooLargeMsg maxFileSize)) :=
      readChunks_oversize maxFileSize (net.chunks vp) [] (by simp) (by simpa using hbig)
    have hmsg : isTooLargeError (.valueError (chunkTooLargeMsg maxFileSize)) = true := by
      unfold isTooLargeError chunkTooLargeMsg
      rw [List.append_assoc]
      exact tooLarge_in_prefixed _ _ (by decide)
    cases hcl : net.contentLength vp with
    | none =>
      dsimp only
      rw [hread]
      exact ⟨_, rfl, hmsg⟩
    | some cl =>
      dsimp only
      by_cases hclbig : cl > maxFileSize
      · rw [if_pos hclbig]
        refine ⟨_, rfl, ?_⟩
        unfold isTooLargeError
        rw [List.append_assoc, List.append_assoc, List.append_assoc]
        exact tooLarge_in_prefixed _ _ (by decide)
      · rw [if_neg hclbig, hread]
        exact ⟨_, rfl, hmsg⟩
  · rw [if_neg hurl]
    rw [if_neg hurl] at hbig
    rw [if_pos hbig]
    refine ⟨_, rfl, ?_⟩
    unfold isTooLargeError
    rw [List.append_assoc, List.append_assoc, List.append_assoc]
    exact tooLarge_in_prefixed _ _ (by decide)

/-- Witness for claim C1: a four-byte remote body against a three-byte
ceiling, with no content-length header. -/
theorem oversize_stream_rejected_witness :
    ∃ e, encodeImageToBase64 emptyFs smallNet 3 (strCodes "http://example.com/a.jpg") =
        .error e ∧ isTooLargeError e = true :=
  oversize_stream_rejected emptyFs smallNet 3 (strCodes "http://example.com/a.jpg")
    (strCodes "http://example.com/a.jpg") rfl rfl (by decide)

/-! ## Claim C4 -/

/-- Claim C4 (code bug evidence): validating the non-existent local path
`/data/missing.jpg` raises `ValueError` — the `FileNotFoundError` raised
inside the `try` block is caught by the `except (OSError, IOError)`
handler (FileNotFoundError is an OSError subclass) and re-raised as
`ValueError`, contradicting `encode_image_to_base64`'s docstring, which
promises `FileNotFoundError` for a missing local file. -/
theorem missing_local_file_raises_valueerror :
    validateImagePath emptyFs 10485760 (strCodes "/data/missing.jpg") =
      .error (.valueError
        (strCodes "Invalid file path: Image file not found: /data/missing.jpg")) ∧
    isNotFoundError (validateImagePath emptyFs 10485760 (strCodes "/data/missing.jpg")) =
      false :=
  ⟨rfl, rfl⟩

/-! ## Claim C5 -/

/-- Claim C5 counterexample: `_validate_image_path` accepts the remote
URL `https://example.com/file.txt` even though its path suffix `.txt` is
outside the extension allow-list — no `ValidationError` is raised for the
Remote variant. -/
theorem remote_txt_url_accepted_by_core_validator :
    validateImagePath emptyFs 10485760 (strCodes "https://example.com/file.txt") =
      .ok (strCodes "https://example.com/file.txt") ∧
    isValidationError
      (validateImagePath emptyFs 10485760 (strCodes "https://example.com/file.txt")) =
      false :=
  ⟨rfl, rfl⟩

/-- Claim C5 (amended): the core `_validate_image_path` does not apply
the extension allow-list to remote URLs; for remote references the
allow-list is enforced only by the CLI's `validate_image_path`, which
fails with a `ValidationError` for every input whose path suffix is
outside the allow-listed set. -/
theorem cli_enforces_extension_allowlist (fs : Fs) (p : List Nat)
    (hext : allowedExtensions.contains (toLowerCodes (pathSuffix p)) = false) :
    isValidationError (cliValidateImagePath fs p) = true := by
  unfold cliValidateImagePath
  by_cases hp : p = []
  · rw [if_pos hp]
    rfl
  · rw [if_neg hp]
    rw [hext]
    rfl

/-- Witness for the amended claim C5 at `https://example.com/file.txt`. -/
theorem cli_enforces_extension_allowlist_witness :
    isValidationError (cliValidateImagePath emptyFs (strCodes "https://example.com/file.txt")) =
      true :=
  cli_enforces_extension_allowlist emptyFs (strCodes "https://example.com/file.txt") (by decide)

/-! ## Claim C8 -/

/-- Claim C8 (code bug evidence): for a missing local file, the error
dictionary `locate_with_gemini` returns contains the file's absolute
path: the sanitizer only rewrites messages containing "No such file or
directory" or "Permission denied", but the missing-file message is the
self-made "Invalid file path: Image file not found: {abs_path}", so the
path is not redacted, contrary to the redaction the code's own comment
("Sanitize error message to avoid exposing sensitive paths") intends. -/
theorem locate_error_leaks_local_path :
    locateEncodeFailure emptyFs smallNet 10485760 (strCodes "/data/missing.jpg") =
      some (.jobj [(strCodes "error",
        .jstr (strCodes
          "Failed to process image: Invalid file path: Image file not found: /data/missing.jpg"))]) ∧
    substrB (strCodes "/data/missing.jpg")
      (strCodes
        "Failed to process image: Invalid file path: Image file not found: /data/missing.jpg") =
      true :=
  ⟨rfl, by decide⟩

/-! ## Claim C9 -/

/-- Claim C9: when a second `locate` call reads the clock less than
`min_request_interval` after the stored last-request time, `_rate_limit`
sleeps for at least the remaining portion of the interval (it sleeps for
exactly that remainder), so the request dispatches no earlier than the
previous dispatch time plus the full interval. -/
theorem rate_limit_delays_second_call (minInterval : ℚ) (st : RateState) (now : ℚ)
    (h : now - st.lastRequestTime < minInterval) :
    minInterval - (now - st.lastRequestTime) ≤ (rateLimit minInterval st now).1 ∧
    dispatchTime minInterval st now = st.lastRequestTime + minInterval := by
  unfold dispatchTime rateLimit
  rw [if_pos h]
  constructor
  · exact le_refl _
  · ring

/-- Witness for claim C9: interval one second, last request at time 0,
second call at time 1/2. -/
theorem rate_limit_delays_second_call_witness :
    (1 : ℚ) - ((1 : ℚ) / 2 - 0) ≤ (rateLimit 1 ⟨0⟩ (1 / 2)).1 ∧
    dispatchTime 1 ⟨0⟩ (1 / 2) = 0 + 1 :=
  rate_limit_delays_second_call 1 ⟨0⟩ (1 / 2) (by norm_num)

/-! ## Claim C10 -/

/-- Claim C10: constructing `GeoSpy` with an explicit empty-string
`api_key` does not itself fail: the `or` fallback uses truthiness, so the
empty key is treated exactly like passing no key, and construction reads
the environment key and succeeds whenever that key is a nonempty string
over `[A-Za-z0-9_-]`. -/
theorem empty_api_key_falls_back_to_env (envKey : List Nat)
    (h1 : envKey ≠ []) (h2 : envKey.all validKeyChar = true) :
    geoSpyInit (some []) (some envKey) = geoSpyInit none (some envKey) ∧
    geoSpyInit (some []) (some envKey) = .ok envKey := by
  have hmatch : keyRegexMatches envKey = true := by
    unfold keyRegexMatches
    split
    · next heq => exact absurd (List.reverse_eq_nil_iff.mp heq) h1
    · next restRev heq =>
      exfalso
      have h10 : (10 : Nat) ∈ envKey := by
        rw [← List.mem_reverse, heq]
        exact List.mem_cons_self _ _
      have := List.all_eq_true.mp h2 _ h10
      simp [validKeyChar] at this
    · exact h2
  refine ⟨rfl, ?_⟩
  show (if envKey = [] then InitResult.configError (strCodes "Gemini API key is required")
        else if (!keyRegexMatches envKey) = true then
          InitResult.configError (strCodes "Invalid API key format")
        else InitResult.ok envKey) = InitResult.ok envKey
  rw [if_neg h1, hmatch]
  rfl

/-- Witness for claim C10 at a well-formed environment key. -/
theorem empty_api_key_falls_back_to_env_witness :
    geoSpyInit (some []) (some (strCodes "AIzaSyTestKey_123-abc")) =
      geoSpyInit none (some (strCodes "AIzaSyTestKey_123-abc")) ∧
    geoSpyInit (some []) (some (strCodes "AIzaSyTestKey_123-abc")) =
      .ok (strCodes "AIzaSyTestKey_123-abc") :=
  empty_api_key_falls_back_to_env (strCodes "AIzaSyTestKey_123-abc") (by decide) (by decide)

end Geospy

